import Mathlib

/-!
Verification development for the bankerbot-budget-buddy ingestion core:
a shallow embedding of `src/utils/dateParser.ts` (class DateParser),
`src/utils/fileParser.ts` (parseAmount, parseCSV, parseXLS, parseFile) and
`src/utils/columnDetector.ts` (class ColumnDetector), together with proofs
about the embedded functions.

Modelling conventions (stated once, used throughout):
* JavaScript strings are Lean `String`s manipulated through their `List Char`
  data; `str.length` of the source corresponds to `s.data.length` (all strings
  involved are BMP, so UTF-16 units = code points).
* JavaScript numbers are `JSNum` (NaN or an exact rational); floating point
  rounding is irrelevant at the precisions exercised here, except for the
  threshold comparisons `x/n > 0.7` etc., which are modelled by the exact
  integer comparisons they are equivalent to for the small integer operands
  that occur (see the comments at those definitions).
* JavaScript `Date` values are civil calendar dates `CalDate` (local time is
  modelled as UTC; no DST).  An invalid date is `Option.none` at the points
  where the source checks `isNaN(d.getTime())`.
* Host functions of the JavaScript engine (`new Date(string)`, `Number`,
  `parseInt`, `parseFloat`) are modelled by executable Lean functions whose
  doc comments state the modelled behaviour.
-/

/-! ### Character and string helpers -/

/-- JS regex `\d`: ASCII digit. -/
def isDig (c : Char) : Bool := 48 ≤ c.toNat && c.toNat ≤ 57

/-- JS regex `\s` restricted to the ASCII whitespace actually exercised:
space and the control whitespace 9..13. -/
def isWs (c : Char) : Bool := c.toNat = 32 || (9 ≤ c.toNat && c.toNat ≤ 13)

/-- JS regex `[a-zA-Z]`. -/
def isAlphaCh (c : Char) : Bool :=
  (65 ≤ c.toNat && c.toNat ≤ 90) || (97 ≤ c.toNat && c.toNat ≤ 122)

/-- JS `String.prototype.toLowerCase` on ASCII letters (other characters are
returned unchanged; the headers and cells exercised are ASCII). -/
def lowCh (c : Char) : Char :=
  if 65 ≤ c.toNat ∧ c.toNat ≤ 90 then Char.ofNat (c.toNat + 32) else c

def lowerChars (l : List Char) : List Char := l.map lowCh

/-- JS `String.prototype.trim` over the char list. -/
def trimChars (l : List Char) : List Char :=
  ((l.dropWhile isWs).reverse.dropWhile isWs).reverse

def trimStr (s : String) : String := String.mk (trimChars s.data)

def lowerStr (s : String) : String := String.mk (lowerChars s.data)

/-- Numeric value of a digit character. -/
def digVal (c : Char) : Nat := c.toNat - 48

/-- Value of a list of decimal digit characters. -/
def digitsVal (l : List Char) : Nat := l.foldl (fun acc c => 10 * acc + digVal c) 0

/-- Character at position `i` (space when out of range), for positional
regex-signature checks. -/
def chAt (l : List Char) (i : Nat) : Char := l.getD i ' '

def digAt (l : List Char) (i : Nat) : Bool := isDig (chAt l i)

/-- First index of an element satisfying `p` (JS `Array.prototype.findIndex`,
with `none` for -1). -/
def findIdx1 {α : Type} (p : α → Bool) : List α → Option Nat
  | [] => none
  | a :: l => if p a then some 0 else (findIdx1 p l).map (· + 1)

/-- Split a character list at a separator character (JS `String.split(sep)`
for a one-character separator). -/
def splitCh (sep : Char) : List Char → List (List Char)
  | [] => [[]]
  | c :: r =>
    match splitCh sep r with
    | s :: ss => if c = sep then [] :: s :: ss else (c :: s) :: ss
    | [] => [[c]]

/-- List prefix test. -/
def isPref : List Char → List Char → Bool
  | [], _ => true
  | _ :: _, [] => false
  | a :: as, b :: bs => a = b && isPref as bs

/-- List infix test. -/
def isInfixB (sub : List Char) : List Char → Bool
  | [] => sub.isEmpty
  | c :: r => isPref sub (c :: r) || isInfixB sub r

/-- Case-insensitive substring containment (`/sub/i.test(h)` for a literal
`sub` given in lower case). -/
def containsCI (h : String) (sub : String) : Bool :=
  isInfixB sub.data (lowerChars h.data)

def containsAnyCI (h : String) (subs : List String) : Bool :=
  subs.any (containsCI h)

/-- Case-sensitive substring containment (JS `String.prototype.includes`). -/
def containsSub (s sub : String) : Bool := isInfixB sub.data s.data

/-! ### Civil calendar arithmetic (the JS `Date` value model)

`daysFromCivil`/`civilFromDays` are the standard proleptic-Gregorian
conversions between a (year, month, day) triple and a day count from
1970-01-01, used to model the millisecond arithmetic and the field
normalisation that `new Date(year, monthIndex, day)` performs. -/

structure CalDate where
  year : Int
  month : Int
  day : Int
deriving DecidableEq, Repr

/-- Day count of civil date y-m-d (month 1..12, day 1..31) from 1970-01-01. -/
def daysFromCivil (y m d : Int) : Int :=
  let y1 : Int := if m ≤ 2 then y - 1 else y
  let era : Int := y1.fdiv 400
  let yoe : Int := y1 - era * 400
  let mp : Int := if 2 < m then m - 3 else m + 9
  let doy : Int := (153 * mp + 2).fdiv 5 + d - 1
  let doe : Int := yoe * 365 + yoe.fdiv 4 - yoe.fdiv 100 + doy
  era * 146097 + doe - 719468

/-- Civil date of a day count from 1970-01-01. -/
def civilFromDays (z0 : Int) : CalDate :=
  let z : Int := z0 + 719468
  let era : Int := z.fdiv 146097
  let doe : Int := z - era * 146097
  let yoe : Int := (doe - doe.fdiv 1460 + doe.fdiv 36524 - doe.fdiv 146096).fdiv 365
  let y : Int := yoe + era * 400
  let doy : Int := doe - (365 * yoe + yoe.fdiv 4 - yoe.fdiv 100)
  let mp : Int := (5 * doy + 2).fdiv 153
  let d : Int := doy - (153 * mp + 2).fdiv 5 + 1
  let m : Int := if mp < 10 then mp + 3 else mp - 9
  ⟨if m ≤ 2 then y + 1 else y, m, d⟩

/-- `new Date(year, monthIndex, day)`: the two-digit-year rule (0..99 maps to
1900..1999) and the overflow normalisation of month index and day. -/
def mkDate (y mIdx d : Int) : CalDate :=
  let y1 : Int := if 0 ≤ y ∧ y ≤ 99 then y + 1900 else y
  let ym : Int := y1 + mIdx.fdiv 12
  let mm : Int := mIdx.emod 12
  civilFromDays (daysFromCivil ym (mm + 1) 1 + (d - 1))

/-- Adding a day count to a civil date (the model of adding
`k * 24*60*60*1000` milliseconds to a midnight timestamp). -/
def addDays (d : CalDate) (k : Int) : CalDate :=
  civilFromDays (daysFromCivil d.year d.month d.day + k)

/-! ### JS values: numbers and raw cells -/

/-- A JavaScript number: NaN or an exact rational. -/
inductive JSNum where
  | nan : JSNum
  | fin : ℚ → JSNum
deriving DecidableEq, Repr

/-- A raw cell of the decoded tabular grid: `null`/`undefined`, a string, or a
number (`undefined` and `null` behave identically at every use below). -/
inductive Cell where
  | null : Cell
  | str : String → Cell
  | num : JSNum → Cell
deriving DecidableEq, Repr

/-- JS truthiness test `!value` (the cell variants of falsiness: null and
undefined, the empty string, 0 and NaN). -/
def cellFalsy : Cell → Bool
  | .null => true
  | .str s => s.data.isEmpty
  | .num .nan => true
  | .num (.fin q) => q = 0

/-- Decimal digit characters of a natural number. -/
def natDigits (n : Nat) : List Char :=
  (Nat.toDigits 10 n)

/-- `String(n)` for an integer JS number. -/
def intToStr (i : Int) : String :=
  match i with
  | .ofNat n => String.mk (natDigits n)
  | .negSucc n => String.mk ('-' :: natDigits (n + 1))

/-- Decimal expansion of the fractional part (numerator `n` over denominator
`d`), with fuel; terminates exactly for decimal fractions, which are the only
ones produced by the parsers here. -/
def fracDigits : Nat → Nat → Nat → List Char
  | 0, _, _ => []
  | _, _, 0 => []
  | fuel + 1, n, d =>
    if n = 0 then []
    else
      let n10 := n * 10
      Char.ofNat (48 + n10 / d) :: fracDigits fuel (n10 % d) d

/-- `String(x)` for a JS number: `"NaN"` for NaN, the plain decimal expansion
otherwise (exponential notation never arises at the magnitudes used here). -/
def numToStr : JSNum → String
  | .nan => "NaN"
  | .fin q =>
    let sgn : List Char := if q < 0 then ['-'] else []
    let n : Nat := q.num.natAbs
    let d : Nat := q.den
    let ip : Nat := n / d
    let fr : List Char := fracDigits 40 (n % d) d
    String.mk (sgn ++ natDigits ip ++ (if fr.isEmpty then [] else '.' :: fr))

/-- JS `String(value)` on a raw cell (`null` prints as "null"; at every call
site below, `null` cells are filtered or short-circuited first). -/
def cellToString : Cell → String
  | .null => "null"
  | .str s => s
  | .num n => numToStr n

/-- JS `String(value || '')`: falsy cells print as the empty string. -/
def cellToStringOrEmpty (v : Cell) : String :=
  if cellFalsy v then "" else cellToString v

/-! ### Model of the host `new Date(string)` parser

`jsDirectParse` models the ECMAScript/V8 date-string parser on the shapes
exercised in this development: date-only ISO `yyyy-mm-dd`, a bare 4-digit
year, numeric `m/d/yyyy` (US order, month and day validated), and the
textual forms `Mon d, yyyy` / `d Mon yyyy` with a 3-letter month.  Strings of
any other shape (including bare 5-digit numbers, dotted dates, and
slash-dates with an out-of-range month such as `15/01/2024`) parse to an
invalid date, i.e. `none`. -/

def isLeap (y : Int) : Bool := (y.emod 4 = 0 && y.emod 100 ≠ 0) || y.emod 400 = 0

def daysInMonth (y : Int) (m : Nat) : Nat :=
  [31, if isLeap y then 29 else 28, 31, 30, 31, 30, 31, 31, 30, 31, 30, 31].getD (m - 1) 0

def digitsOnly (l : List Char) : Bool := l.all isDig

def month3Names : List (List Char) :=
  ["jan".data, "feb".data, "mar".data, "apr".data, "may".data, "jun".data,
   "jul".data, "aug".data, "sep".data, "oct".data, "nov".data, "dec".data]

/-- Consume a 3-letter month name (case-insensitive); yields the 1-based
month number and the rest of the input. -/
def month3 : List Char → Option (Nat × List Char)
  | a :: b :: c :: rest =>
    match findIdx1 (fun nm => nm = [lowCh a, lowCh b, lowCh c]) month3Names with
    | some i => some (i + 1, rest)
    | none => none
  | _ => none

/-- Consume one or more whitespace characters. -/
def eatWs1 (l : List Char) : Option (List Char) :=
  match l with
  | c :: r => if isWs c then some (r.dropWhile isWs) else none
  | [] => none

/-- Consume 1 or 2 digits (greedily) and their value. -/
def eatDigits12 (l : List Char) : Option (Nat × List Char) :=
  match l with
  | a :: b :: r =>
    if isDig a then
      if isDig b then some (digitsVal [a, b], r) else some (digVal a, b :: r)
    else none
  | [a] => if isDig a then some (digVal a, []) else none
  | [] => none

def eatDigits4 (l : List Char) : Option (Nat × List Char) :=
  match l with
  | a :: b :: c :: d :: r =>
    if isDig a && isDig b && isDig c && isDig d then some (digitsVal [a, b, c, d], r)
    else none
  | _ => none

def eatComma (l : List Char) : List Char :=
  match l with
  | ',' :: r => r
  | _ => l

def isoYmdAttempt (l : List Char) : Option CalDate :=
  if l.length = 10 ∧ digAt l 0 ∧ digAt l 1 ∧ digAt l 2 ∧ digAt l 3 ∧ chAt l 4 = '-' ∧
      digAt l 5 ∧ digAt l 6 ∧ chAt l 7 = '-' ∧ digAt l 8 ∧ digAt l 9 then
    let y := digitsVal (l.take 4)
    let m := digitsVal ((l.drop 5).take 2)
    let d := digitsVal ((l.drop 8).take 2)
    if 1 ≤ m ∧ m ≤ 12 ∧ 1 ≤ d ∧ d ≤ daysInMonth y m then some ⟨y, m, d⟩ else none
  else none

def yearOnlyAttempt (l : List Char) : Option CalDate :=
  if l.length = 4 ∧ digitsOnly l then some ⟨digitsVal l, 1, 1⟩ else none

def mdySlashAttempt (l : List Char) : Option CalDate :=
  match splitCh '/' l with
  | [p1, p2, p3] =>
    if (1 ≤ p1.length ∧ p1.length ≤ 2 ∧ digitsOnly p1) ∧
        (1 ≤ p2.length ∧ p2.length ≤ 2 ∧ digitsOnly p2) ∧
        (p3.length = 4 ∧ digitsOnly p3) then
      let m := digitsVal p1
      let d := digitsVal p2
      let y := digitsVal p3
      if 1 ≤ m ∧ m ≤ 12 ∧ 1 ≤ d ∧ d ≤ daysInMonth y m then some ⟨y, m, d⟩ else none
    else none
  | _ => none

def monDYAttempt (l : List Char) : Option CalDate := do
  let (m, r1) ← month3 l
  let r2 ← eatWs1 r1
  let (d, r3) ← eatDigits12 r2
  let r4 := (eatComma r3).dropWhile isWs
  let (y, r5) ← eatDigits4 r4
  if r5.all isWs ∧ 1 ≤ d ∧ d ≤ daysInMonth y m then some ⟨y, m, d⟩ else none

def dMonYAttempt (l : List Char) : Option CalDate := do
  let (d, r1) ← eatDigits12 l
  let r2 ← eatWs1 r1
  let (m, r3) ← month3 r2
  let r4 ← eatWs1 r3
  let (y, r5) ← eatDigits4 r4
  if r5.all isWs ∧ 1 ≤ d ∧ d ≤ daysInMonth y m then some ⟨y, m, d⟩ else none

def jsDirectParse (s : String) : Option CalDate :=
  isoYmdAttempt s.data <|> yearOnlyAttempt s.data <|> mdySlashAttempt s.data <|>
    monDYAttempt s.data <|> dMonYAttempt s.data

/-- Model of JS `parseInt`: skip leading whitespace, optional sign, then a
nonempty run of leading digits (radix prefixes never occur here); `none` is
NaN. -/
def jsParseIntL (l : List Char) : Option Int :=
  let l1 := l.dropWhile isWs
  let (neg, l2) : Bool × List Char :=
    match l1 with
    | c :: r => if c = '-' then (true, r) else if c = '+' then (false, r) else (false, l1)
    | [] => (false, l1)
  let ds := l2.takeWhile isDig
  if ds.isEmpty then none
  else some (if neg then -(digitsVal ds : Int) else (digitsVal ds : Int))

/-- Model of JS `Number` restricted to the strings that reach it below: the
pieces of a string already matched by a `\d`-based date signature, which are
either nonnegative integer strings (value) or carry garbage (NaN = `none`). -/
def jsNumber (l : List Char) : Option Int :=
  if l.isEmpty then none else if digitsOnly l then some (digitsVal l) else none

/-! ### DateParser (src/utils/dateParser.ts) -/

/-- The `format` tags of `DateParser.patterns`, in table order. -/
inductive DFormat where
  | iso | ymd | mdySl | mdyDa | dmySl | dmyDa | dmyDot | ymdDot
  | dMmmY | mmmDY | excelSerial | dayOnly | monthOnly | yearOnly
deriving DecidableEq, Repr

/-- `^\d{4}-\d{2}-\d{2}T\d{2}:\d{2}:\d{2}` (prefix). -/
def testIso (l : List Char) : Bool :=
  digAt l 0 && digAt l 1 && digAt l 2 && digAt l 3 && (chAt l 4 == '-') &&
    digAt l 5 && digAt l 6 && (chAt l 7 == '-') && digAt l 8 && digAt l 9 &&
    (chAt l 10 == 'T') && digAt l 11 && digAt l 12 && (chAt l 13 == ':') &&
    digAt l 14 && digAt l 15 && (chAt l 16 == ':') && digAt l 17 && digAt l 18

/-- `^\d{4}-\d{2}-\d{2}` (prefix). -/
def testYmd (l : List Char) : Bool :=
  digAt l 0 && digAt l 1 && digAt l 2 && digAt l 3 && (chAt l 4 == '-') &&
    digAt l 5 && digAt l 6 && (chAt l 7 == '-') && digAt l 8 && digAt l 9

/-- `\d{1,2}` followed by the separator, with the regex backtracking rule:
two digits require the separator next; one digit requires it immediately. -/
def num12 (sep : Char) : List Char → Option (List Char)
  | [] => none
  | c :: rest =>
    if isDig c then
      match rest with
      | c2 :: rest2 =>
        if isDig c2 then
          match rest2 with
          | c3 :: rest3 => if c3 = sep then some rest3 else none
          | [] => none
        else if c2 = sep then some rest2 else none
      | [] => none
    else none

def fourDigitsPref (l : List Char) : Bool :=
  digAt l 0 && digAt l 1 && digAt l 2 && digAt l 3

/-- `^\d{1,2}sep\d{1,2}sep\d{4}` (prefix), for sep ∈ {/, -}. -/
def testNumNumYear (sep : Char) (l : List Char) : Bool :=
  match num12 sep l with
  | some r =>
    match num12 sep r with
    | some r2 => fourDigitsPref r2
    | none => false
  | none => false

/-- `^\d{2}\.\d{2}\.\d{4}` (prefix). -/
def testDmyDot (l : List Char) : Bool :=
  digAt l 0 && digAt l 1 && (chAt l 2 == '.') && digAt l 3 && digAt l 4 &&
    (chAt l 5 == '.') && digAt l 6 && digAt l 7 && digAt l 8 && digAt l 9

/-- `^\d{4}\.\d{2}\.\d{2}` (prefix). -/
def testYmdDot (l : List Char) : Bool :=
  digAt l 0 && digAt l 1 && digAt l 2 && digAt l 3 && (chAt l 4 == '.') &&
    digAt l 5 && digAt l 6 && (chAt l 7 == '.') && digAt l 8 && digAt l 9

/-- `^\d{1,2}\s+`, consuming the whitespace run. -/
def eatD12Ws (l : List Char) : Option (List Char) :=
  match l with
  | a :: b :: r =>
    if isDig a then
      if isDig b then
        match r with
        | c :: r2 => if isWs c then some (r2.dropWhile isWs) else none
        | [] => none
      else if isWs b then some (r.dropWhile isWs) else none
    else none
  | _ => none

/-- `^\d{1,2}\s+(Jan|…|Dec)\s+\d{4}` (prefix, case-insensitive). -/
def testDMmmY (l : List Char) : Bool :=
  match eatD12Ws l with
  | some r =>
    match month3 r with
    | some (_, r2) =>
      match eatWs1 r2 with
      | some r3 => fourDigitsPref r3
      | none => false
    | none => false
  | none => false

/-- `^(Jan|…|Dec)\s+\d{1,2},?\s+\d{4}` (prefix, case-insensitive). -/
def testMmmDY (l : List Char) : Bool :=
  match month3 l with
  | some (_, r) =>
    match eatWs1 r with
    | some r2 =>
      match eatDigits12 r2 with
      | some (_, r3) =>
        match eatWs1 (eatComma r3) with
        | some r5 => fourDigitsPref r5
        | none => false
      | none => false
    | none => false
  | none => false

/-- `^\d{5}$`. -/
def testExcel (l : List Char) : Bool :=
  match l with
  | [a, b, c, d, e] => isDig a && isDig b && isDig c && isDig d && isDig e
  | _ => false

/-- `^\d{1,2}$`. -/
def testDayOnly (l : List Char) : Bool :=
  match l with
  | [a] => isDig a
  | [a, b] => isDig a && isDig b
  | _ => false

/-- `^(Jan|…|Dec)$` (case-insensitive). -/
def testMonthOnly (l : List Char) : Bool :=
  match month3 l with
  | some (_, r) => r.isEmpty
  | none => false

/-- `^\d{4}$`. -/
def testYearOnly (l : List Char) : Bool :=
  match l with
  | [a, b, c, d] => isDig a && isDig b && isDig c && isDig d
  | _ => false

def fmtTest : DFormat → List Char → Bool
  | .iso => testIso
  | .ymd => testYmd
  | .mdySl => testNumNumYear '/'
  | .mdyDa => testNumNumYear '-'
  | .dmySl => testNumNumYear '/'
  | .dmyDa => testNumNumYear '-'
  | .dmyDot => testDmyDot
  | .ymdDot => testYmdDot
  | .dMmmY => testDMmmY
  | .mmmDY => testMmmDY
  | .excelSerial => testExcel
  | .dayOnly => testDayOnly
  | .monthOnly => testMonthOnly
  | .yearOnly => testYearOnly

/-- `DateParser.patterns`, in source order. -/
def datePatterns : List DFormat :=
  [.iso, .ymd, .mdySl, .mdyDa, .dmySl, .dmyDa, .dmyDot, .ymdDot,
   .dMmmY, .mmmDY, .excelSerial, .dayOnly, .monthOnly, .yearOnly]

def containsChar (l : List Char) (c : Char) : Bool := l.any (· == c)

/-- Take the first three pieces of a split and build the date with the given
field order (`none` models the `NaN` component / invalid-date cases). -/
def dateOf3 (parts : List (List Char)) (mk : Int → Int → Int → CalDate) : Option CalDate :=
  match parts with
  | a :: b :: c :: _ => do
    let x ← jsNumber a
    let y ← jsNumber b
    let z ← jsNumber c
    some (mk x y z)
  | _ => none

/-- `DateParser.parseWithFormat`. -/
def parseWithFormat (s : String) : DFormat → Option CalDate
  | .iso => jsDirectParse s
  | .ymd => dateOf3 (splitCh '-' s.data) (fun y m d => mkDate y (m - 1) d)
  | .mdySl | .mdyDa =>
    let sep := if containsChar s.data '/' then '/' else '-'
    dateOf3 (splitCh sep s.data) (fun m d y => mkDate y (m - 1) d)
  | .dmySl | .dmyDa =>
    let sep := if containsChar s.data '/' then '/' else '-'
    dateOf3 (splitCh sep s.data) (fun d m y => mkDate y (m - 1) d)
  | .dmyDot => dateOf3 (splitCh '.' s.data) (fun d m y => mkDate y (m - 1) d)
  | .ymdDot => dateOf3 (splitCh '.' s.data) (fun y m d => mkDate y (m - 1) d)
  | .excelSerial =>
    match jsParseIntL s.data with
    | some n => some (addDays ⟨1900, 1, 1⟩ (n - 2))
    | none => none
  | _ => jsDirectParse s

/-- The pattern loop of `DateParser.parseDate`: first pattern whose regex
matches and whose extraction yields a valid date wins. -/
def tryPatternsGo (s : String) : List DFormat → Option CalDate
  | [] => none
  | f :: fs =>
    if fmtTest f s.data then
      match parseWithFormat s f with
      | some d => some d
      | none => tryPatternsGo s fs
    else tryPatternsGo s fs

def tryPatterns (s : String) : Option CalDate := tryPatternsGo s datePatterns

/-- The three fixed year-month-day arrangements of `tryDateParts`. -/
def firstArrangement : List (Int × Int × Int) → Option CalDate
  | [] => none
  | (y, m, d) :: rest =>
    if 1900 ≤ y ∧ y ≤ 2100 ∧ 0 ≤ m ∧ m ≤ 11 ∧ 1 ≤ d ∧ d ≤ 31 then some (mkDate y m d)
    else firstArrangement rest

/-- `DateParser.tryDateParts`. -/
def tryDateParts (parts : List (List Char)) : Option CalDate :=
  let nums := parts.filterMap jsParseIntL
  match nums with
  | n0 :: n1 :: n2 :: _ =>
    firstArrangement [(n2, n1 - 1, n0), (n2, n0 - 1, n1), (n0, n1 - 1, n2)]
  | _ => none

/-- The separator-guessing loop of `DateParser.parseDate`. -/
def trySepsGo (s : String) : List Char → Option CalDate
  | [] => none
  | sep :: rest =>
    if containsChar s.data sep then
      let parts := (splitCh sep s.data).map trimChars
      if 3 ≤ parts.length then
        match tryDateParts parts with
        | some d => some d
        | none => trySepsGo s rest
      else trySepsGo s rest
    else trySepsGo s rest

def trySeps (s : String) : Option CalDate := trySepsGo s ['/', '-', '.', ' ']

/-- Result of `DateParser.parseDate`: either a parsed calendar date or the
documented fallback `new Date()` (today). -/
inductive DResult where
  | today : DResult
  | date : CalDate → DResult
deriving DecidableEq, Repr

def parseDateRest (str : String) : DResult :=
  match tryPatterns str with
  | some d => .date d
  | none =>
    match trySeps str with
    | some d => .date d
    | none => .today

/-- `DateParser.parseDate` (cells are never `Date` objects here, so the
`instanceof Date` branch is not represented). -/
def parseDate (v : Cell) : DResult :=
  if cellFalsy v then .today
  else
    let str := trimStr (cellToString v)
    if str.data.isEmpty then .today
    else
      match jsDirectParse str with
      | some d => if 1900 < d.year then .date d else parseDateRest str
      | none => parseDateRest str

/-- `/^[a-zA-Z\s-]+$/` character class. -/
def isAlphaSpaceHyphen (c : Char) : Bool := isAlphaCh c || isWs c || c == '-'

/-- The `new Date(str)` plausibility check of `isLikelyDateColumn`:
1 when the direct parse is valid with year strictly between 1900 and 2100. -/
def jsPlausibleParse (s : String) : Nat :=
  match jsDirectParse s with
  | some d => if 1900 < d.year ∧ d.year < 2100 then 1 else 0
  | none => 0

/-- Contribution of one sampled value to `dateCount` in
`DateParser.isLikelyDateColumn`: skipped values contribute 0; otherwise one
point for a pattern-table match plus one for a plausible direct parse. -/
def dateScore (v : Cell) : Nat :=
  if cellFalsy v then 0
  else
    let str := trimStr (cellToString v)
    let l := str.data
    if l.isEmpty then 0
    else if 50 < l.length then 0
    else if l.all isAlphaSpaceHyphen then 0
    else (if datePatterns.any (fun f => fmtTest f l) then 1 else 0) + jsPlausibleParse str

/-- `DateParser.isLikelyDateColumn`.  The float comparison
`dateCount / sampleSize > 0.7` is modelled by the exact integer comparison,
which coincides with it for all the (small-integer) operands that occur. -/
def isLikelyDateColumn (values : List Cell) : Bool :=
  if values.isEmpty then false
  else
    let sampleSize := min 10 values.length
    let dateCount := ((values.take 10).map dateScore).sum
    7 * sampleSize < 10 * dateCount

/-! ### AmountValue parser (parseAmount in src/utils/fileParser.ts) -/

/-- Model of JS `parseFloat`: skip leading whitespace, optional sign, then
the longest `\d*\.?\d*` prefix with at least one digit; `nan` otherwise.
(Exponent forms are not exercised by any input here.) -/
def parseFloatM (s : String) : JSNum :=
  let l := s.data.dropWhile isWs
  let (neg, l2) : Bool × List Char :=
    match l with
    | '-' :: r => (true, r)
    | '+' :: r => (false, r)
    | _ => (false, l)
  let ds := l2.takeWhile isDig
  let rest := l2.dropWhile isDig
  let fr : List Char :=
    match rest with
    | '.' :: r2 => r2.takeWhile isDig
    | _ => []
  if ds.isEmpty ∧ fr.isEmpty then .nan
  else
    let mag : ℚ := (digitsVal ds : ℚ) + (digitsVal fr : ℚ) / (10 : ℚ) ^ fr.length
    .fin (if neg then -mag else mag)

def isCurrencySym (c : Char) : Bool :=
  c == '$' || c == '£' || c == '€' || c == '¥' || c == '₹'

/-- The character class `[$£€¥₹,\s]` removed by `parseAmount`. -/
def isStripped (c : Char) : Bool := isCurrencySym c || c == ',' || isWs c

/-- `parseAmount` of src/utils/fileParser.ts. -/
def parseAmount : Cell → JSNum
  | .num n => n
  | v =>
    let str := trimChars (cellToStringOrEmpty v).data
    if str.isEmpty then .fin 0
    else
      let cleaned := str.filter (fun c => !isStripped c)
      if cleaned.headD ' ' == '(' && cleaned.getLastD ' ' == ')' then
        match parseFloatM (String.mk ((cleaned.drop 1).dropLast)) with
        | .nan => .fin 0
        | .fin q => .fin (-q)
      else
        match parseFloatM (String.mk cleaned) with
        | .nan => .fin 0
        | .fin q => .fin q

/-! ### ColumnDetector (src/utils/columnDetector.ts) -/

/-- `^[-+]?[\$£€¥₹]?\d+[,.]?\d*[\$£€¥₹]?$` (the loose amount signature of
`calculateConfidence` and `isLikelyDescriptionColumn`). -/
def amountLooseTest (l : List Char) : Bool :=
  let l1 : List Char :=
    match l with
    | '-' :: r => r
    | '+' :: r => r
    | _ => l
  let l2 : List Char :=
    match l1 with
    | c :: r => if isCurrencySym c then r else l1
    | [] => l1
  let ds := l2.takeWhile isDig
  let r3 := l2.dropWhile isDig
  if ds.isEmpty then false
  else
    let r4 : List Char :=
      match r3 with
      | c :: r => if c == ',' || c == '.' then r else r3
      | [] => r3
    let r5 := r4.dropWhile isDig
    let r6 : List Char :=
      match r5 with
      | c :: r => if isCurrencySym c then r else r5
      | [] => r5
    r6.isEmpty

/-- Zero or more `,\d{3}` groups, consumed greedily. -/
def eatCommaGroups : List Char → List Char
  | ',' :: a :: b :: c :: r =>
    if isDig a && isDig b && isDig c then eatCommaGroups r else ',' :: a :: b :: c :: r
  | l => l

/-- `^[-+]?[\$£€¥₹]?\d{1,3}(,\d{3})*(\.\d{2})?[\$£€¥₹]?$`. -/
def amountThousandsTest (l : List Char) : Bool :=
  let l1 : List Char :=
    match l with
    | '-' :: r => r
    | '+' :: r => r
    | _ => l
  let l2 : List Char :=
    match l1 with
    | c :: r => if isCurrencySym c then r else l1
    | [] => l1
  let ds := l2.takeWhile isDig
  let r1 := l2.dropWhile isDig
  if ds.isEmpty ∨ 3 < ds.length then false
  else
    let r2 := eatCommaGroups r1
    let r3 : Option (List Char) :=
      match r2 with
      | '.' :: a :: b :: r => if isDig a && isDig b then some r else none
      | _ => some r2
    match r3 with
    | some rr =>
      let r4 : List Char :=
        match rr with
        | c :: r => if isCurrencySym c then r else rr
        | [] => rr
      r4.isEmpty
    | none => false

/-- `^[-+]?\d+(\.\d{1,2})?$`. -/
def amountPlainTest (l : List Char) : Bool :=
  let l1 : List Char :=
    match l with
    | '-' :: r => r
    | '+' :: r => r
    | _ => l
  let ds := l1.takeWhile isDig
  let r1 := l1.dropWhile isDig
  if ds.isEmpty then false
  else
    match r1 with
    | [] => true
    | '.' :: r =>
      let fs := r.takeWhile isDig
      let rr := r.dropWhile isDig
      decide (1 ≤ fs.length) && decide (fs.length ≤ 2) && rr.isEmpty
    | _ => false

/-- `^\(\d+(\.\d{2})?\)$` (accounting format). -/
def amountParenTest (l : List Char) : Bool :=
  match l with
  | '(' :: r =>
    let ds := r.takeWhile isDig
    let r1 := r.dropWhile isDig
    if ds.isEmpty then false
    else
      match r1 with
      | [')'] => true
      | '.' :: a :: b :: [')'] => isDig a && isDig b
      | _ => false
  | _ => false

/-- Contribution of one sampled value to `numericCount` in
`ColumnDetector.isLikelyAmountColumn`. -/
def amountScore (v : Cell) : Nat :=
  match v with
  | .null => 0
  | v =>
    let str := trimChars (cellToString v).data
    if str.isEmpty then 0
    else if amountThousandsTest str || amountPlainTest str || amountParenTest str then 1
    else 0

/-- `ColumnDetector.isLikelyAmountColumn` (`> 0.8` modelled exactly, as for
the date threshold). -/
def isLikelyAmountColumn (values : List Cell) : Bool :=
  if values.isEmpty then false
  else
    let sampleSize := min 10 values.length
    let numericCount := ((values.take 10).map amountScore).sum
    8 * sampleSize < 10 * numericCount

/-- Contribution of one sampled value to `textCount` in
`ColumnDetector.isLikelyDescriptionColumn`. -/
def descScore (v : Cell) : Nat :=
  match v with
  | .null => 0
  | v =>
    let str := trimChars (cellToString v).data
    if str.isEmpty then 0
    else if decide (5 < str.length) && str.any isAlphaCh &&
        !isLikelyDateColumn [Cell.str (String.mk str)] && !amountLooseTest str then 1
    else 0

/-- `ColumnDetector.isLikelyDescriptionColumn` (`> 0.6` modelled exactly). -/
def isLikelyDescriptionColumn (values : List Cell) : Bool :=
  if values.isEmpty then false
  else
    let sampleSize := min 10 values.length
    let textCount := ((values.take 10).map descScore).sum
    6 * sampleSize < 10 * textCount

/-- Contribution of one of the first 5 sampled values to `patternMatches`
in `ColumnDetector.calculateConfidence`. -/
def confScore (v : Cell) : Nat :=
  let val := trimChars (cellToStringOrEmpty v).data
  if val.isEmpty then 0
  else
    (if isLikelyDateColumn [Cell.str (String.mk val)] then 20 else 0) +
      (if amountLooseTest val then 20 else 0) +
      (if decide (10 < val.length) && val.any isAlphaCh then 10 else 0)

/-- `ColumnDetector.calculateConfidence`. -/
def calculateConfidence (values : List Cell) (header : String) : Nat :=
  let hl := lowerStr header
  let c1 := if containsSub hl "date" || containsSub hl "posted" || containsSub hl "time" then 30 else 0
  let c2 := if containsSub hl "amount" || containsSub hl "total" || containsSub hl "value" then 30 else 0
  let c3 := if containsSub hl "description" || containsSub hl "merchant" || containsSub hl "memo" then 30 else 0
  let base := c1 + c2 + c3
  if values.isEmpty then base
  else base + min (((values.take 5).map confScore).sum) 50

/-- Full match of the single lowercase word `w`. -/
def exactW (w : String) (l : List Char) : Bool := l = w.data

def eatLit (lit : List Char) (l : List Char) : Option (List Char) :=
  if isPref lit l then some (l.drop lit.length) else none

/-- `^a\s*b$` for lowercase literals `a`, `b`. -/
def twoW (a b : String) (l : List Char) : Bool :=
  match eatLit a.data l with
  | some r => (r.dropWhile isWs) = b.data
  | none => false

/-- `^(a\s*)?b$`. -/
def optPre (a b : String) (l : List Char) : Bool := twoW a b l || exactW b l

/-- The `date` entry of `ColumnDetector.patterns` (tested against the
trimmed, lowercased header). -/
def dateHeaderMatch (l : List Char) : Bool :=
  optPre "transaction" "date" l || twoW "posting" "date" l || twoW "posted" "date" l ||
    exactW "date" l || twoW "effective" "date" l || twoW "value" "date" l ||
    twoW "settlement" "date" l || twoW "process" "date" l || exactW "time" l ||
    exactW "timestamp" l || exactW "when" l || exactW "dated" l || exactW "posted" l ||
    exactW "on" l

/-- The `amount` entry of `ColumnDetector.patterns`. -/
def amountHeaderMatch (l : List Char) : Bool :=
  exactW "amount" l || exactW "value" l || exactW "sum" l || exactW "total" l ||
    exactW "credit" l || exactW "debit" l || twoW "transaction" "amount" l ||
    twoW "net" "amount" l || twoW "gross" "amount" l || exactW "balance" l ||
    exactW "money" l || exactW "$" l || exactW "aud" l || exactW "usd" l ||
    exactW "gbp" l || exactW "eur" l

/-- The `description` entry of `ColumnDetector.patterns`. -/
def descHeaderMatch (l : List Char) : Bool :=
  exactW "description" l || exactW "memo" l || exactW "details" l ||
    twoW "transaction" "details" l || exactW "reference" l || exactW "particulars" l ||
    exactW "narrative" l || exactW "merchant" l || exactW "payee" l || exactW "vendor" l ||
    exactW "supplier" l || exactW "comment" l || exactW "note" l || exactW "remarks" l

/-- The `account` entry of `ColumnDetector.patterns`. -/
def accountHeaderMatch (l : List Char) : Bool :=
  exactW "account" l || twoW "acc" "no" l || twoW "account" "number" l ||
    twoW "account" "name" l || exactW "bank" l || exactW "institution" l ||
    exactW "source" l || exactW "from" l || exactW "to" l

structure ColumnMapping where
  date : Option Nat := none
  amount : Option Nat := none
  description : Option Nat := none
  account : Option Nat := none
deriving DecidableEq, Repr

structure ColAnalysis where
  index : Nat
  isDate : Bool
  isAmount : Bool
  isDesc : Bool
  confidence : Nat
deriving DecidableEq, Repr

/-- The sampled values of one column:
`data.slice(0, min(10, len)).map(row => row[index]).filter(v => v != null)`. -/
def columnValues (data : List (List Cell)) (index : Nat) : List Cell :=
  (data.take 10).filterMap fun row =>
    match row.getD index Cell.null with
    | Cell.null => none
    | v => some v

def analyzeOne (headers : List String) (data : List (List Cell)) (i : Nat) : ColAnalysis :=
  let vals := columnValues data i
  { index := i
    isDate := isLikelyDateColumn vals
    isAmount := isLikelyAmountColumn vals
    isDesc := isLikelyDescriptionColumn vals
    confidence := calculateConfidence vals (headers.getD i "") }

/-- The per-column content analysis of tier 1. -/
def analyzeColumns (headers : List String) (data : List (List Cell)) : List ColAnalysis :=
  (List.range headers.length).map (analyzeOne headers data)

/-- Head of the stable sort by descending confidence: the leftmost column of
maximal confidence. -/
def selectBest (l : List ColAnalysis) : Option ColAnalysis :=
  l.foldl
    (fun best x =>
      match best with
      | none => some x
      | some b => if b.confidence < x.confidence then some x else some b)
    none

/-- Tier 1 of `ColumnDetector.detectColumns`: content-driven selection of
date, amount, then description (description excluding the indices already
claimed by date/amount; date and amount chosen independently). -/
def tier1 (headers : List String) (data : List (List Cell)) (m : ColumnMapping) : ColumnMapping :=
  let analysis := analyzeColumns headers data
  let m1 :=
    match selectBest (analysis.filter (·.isDate)) with
    | some c => { m with date := some c.index }
    | none => m
  let m2 :=
    match selectBest (analysis.filter (·.isAmount)) with
    | some c => { m1 with amount := some c.index }
    | none => m1
  match selectBest (analysis.filter fun c =>
      c.isDesc && !(m2.date == some c.index) && !(m2.amount == some c.index)) with
  | some c => { m2 with description := some c.index }
  | none => m2

def cleanHeader (h : String) : List Char := lowerChars (trimChars h.data)

/-- One header's pass over the four role pattern tables (tier 2); a role is
claimed only if still unassigned.  The source checks the four roles in
sequence; since each check reads and writes only its own role, the pass is
written field-wise. -/
def tier2Step (i : Nat) (h : String) (m : ColumnMapping) : ColumnMapping :=
  { date := if m.date.isNone && dateHeaderMatch (cleanHeader h) then some i else m.date
    amount := if m.amount.isNone && amountHeaderMatch (cleanHeader h) then some i else m.amount
    description :=
      if m.description.isNone && descHeaderMatch (cleanHeader h) then some i else m.description
    account :=
      if m.account.isNone && accountHeaderMatch (cleanHeader h) then some i else m.account }

/-- Tier 2 of `ColumnDetector.detectColumns`: header-pattern fallback. -/
def tier2 (headers : List String) (m : ColumnMapping) : ColumnMapping :=
  (List.range headers.length).foldl (fun acc i => tier2Step i (headers.getD i "") acc) m

def countAssigned (m : ColumnMapping) : Nat :=
  (if m.date.isSome then 1 else 0) + (if m.amount.isSome then 1 else 0) +
    (if m.description.isSome then 1 else 0) + (if m.account.isSome then 1 else 0)

/-- `ColumnDetector.smartGuess` (tier 3).  The source applies the four
guesses in sequence (`Object.entries(likely).forEach`); since each guess
reads and writes only its own role, the pass is written field-wise:
a guessed index is applied when the guess found one (`index >= 0`) and the
role is still unassigned. -/
def smartGuess (headers : List String) (m : ColumnMapping) : ColumnMapping :=
  { date :=
      match findIdx1 (fun h => containsAnyCI h ["date", "time", "when", "posted", "on"]) headers with
      | some i => if m.date.isNone then some i else m.date
      | none => m.date
    amount :=
      match findIdx1 (fun h =>
          containsAnyCI h ["amount", "total", "value", "sum", "$", "money", "credit", "debit"])
          headers with
      | some i => if m.amount.isNone then some i else m.amount
      | none => m.amount
    description :=
      match findIdx1 (fun h =>
          containsAnyCI h ["desc", "memo", "detail", "merchant", "payee", "reference", "particular"])
          headers with
      | some i => if m.description.isNone then some i else m.description
      | none => m.description
    account :=
      match findIdx1 (fun h => containsAnyCI h ["account", "acc", "bank", "source", "from"])
          headers with
      | some i => if m.account.isNone then some i else m.account
      | none => m.account }

/-- `ColumnDetector.detectColumns`. -/
def detectColumns (headers : List String) (data : List (List Cell)) : ColumnMapping :=
  let m0 : ColumnMapping := {}
  let m1 := if data.isEmpty then m0 else tier1 headers data m0
  let m2 := tier2 headers m1
  if countAssigned m2 < 2 then smartGuess headers m2 else m2

/-! ### Row materializer and ingestion orchestrator (src/utils/fileParser.ts) -/

/-- A normalized transaction record.  The `id` field of the source (an opaque
token drawn from `Math.random`) is host randomness and carries no information;
it is not represented. -/
structure Transaction where
  date : DResult
  amount : JSNum
  description : String
  account : String
  sourceFile : String
deriving DecidableEq, Repr

def natToStr (n : Nat) : String := String.mk (natDigits n)

/-- `fileName.replace(/\.[^/.]+$/, '')`: strip a final dot-extension. -/
def stripExtension (name : String) : String :=
  let r := name.data.reverse
  let ext := r.takeWhile fun c => !(c == '.' || c == '/')
  match r.drop ext.length with
  | '.' :: rest => if ext.isEmpty then name else String.mk rest.reverse
  | _ => name

/-- `row.every(val => !val || String(val).trim() === '')` (an entirely empty
row; the rows of the grid are always arrays, so `!row` never fires). -/
def isEmptyRow (row : List Cell) : Bool :=
  row.all fun v => cellFalsy v || (trimChars (cellToString v).data).isEmpty

/-- The body of the per-row `try` block: build one transaction from the
classified columns (out-of-range cells read as `undefined`, modelled by
`Cell.null`, which behaves identically at each use).  In the model, as in
the source, no step of this body can throw, so it always succeeds; the
`Except` return type is the model of the `try`/`catch` boundary. -/
def extractRow (fileName : String) (cmap : ColumnMapping) (index : Nat) (row : List Cell) :
    Except String Transaction :=
  .ok
    { date :=
        match cmap.date with
        | some i => parseDate (row.getD i Cell.null)
        | none => .today
      amount :=
        match cmap.amount with
        | some i => parseAmount (row.getD i Cell.null)
        | none => .fin 0
      description :=
        match cmap.description with
        | some i => cellToStringOrEmpty (row.getD i Cell.null)
        | none => "Transaction " ++ natToStr (index + 1)
      account :=
        match cmap.account with
        | some i => cellToStringOrEmpty (row.getD i Cell.null)
        | none => stripExtension fileName
      sourceFile := fileName }

/-- A recorded row failure: 1-based row position, raw row, error message. -/
def FailedRow : Type := Nat × List Cell × String

/-- The `dataRows.forEach((row, index) => …)` loop of `parseCSV`/`parseXLS`,
abstracted over the `try`-block body: empty rows are skipped, a failing body
records the row (with its 1-based position and raw content) and processing
continues, a succeeding body appends its transaction. -/
def materializeGo (extract : Nat → List Cell → Except String Transaction) :
    Nat → List (List Cell) → List Transaction × List FailedRow
  | _, [] => ([], [])
  | i, r :: rs =>
    let rest := materializeGo extract (i + 1) rs
    if isEmptyRow r then rest
    else
      match extract i r with
      | .ok t => (t :: rest.1, rest.2)
      | .error e => (rest.1, ((i + 1, r, e) : FailedRow) :: rest.2)

def materializeRows (extract : Nat → List Cell → Except String Transaction)
    (rows : List (List Cell)) : List Transaction × List FailedRow :=
  materializeGo extract 0 rows

structure ParseResult where
  transactions : List Transaction
  fileName : String
  detectedColumns : List String
deriving DecidableEq, Repr

/-- `parseCSV`, from the point where the external CSV decoder has delivered
the row grid (Papa Parse delivers strings): header split, the
`NoDetectableColumns` guard, and row materialization. -/
def parseCSVRows (fileName : String) (rows : List (List String)) : Except String ParseResult :=
  if rows.isEmpty then .error "No data found in CSV file"
  else
    let headers := rows.headD []
    let dataRows := (rows.drop 1).map (·.map Cell.str)
    if headers.isEmpty then .error "No headers found in CSV file"
    else
      let cmap := detectColumns headers (dataRows.take 10)
      if cmap.date.isNone && cmap.amount.isNone then
        .error "Could not detect date or amount columns. Please check your CSV format."
      else
        .ok ⟨(materializeRows (extractRow fileName cmap) dataRows).1, fileName, headers⟩

/-- `parseXLS`, from the point where the sheet has been decoded to a cell
grid.  The source casts the first row to `string[]`; the cast is modelled by
taking the string form of those cells (they are strings in every run the
claims concern).  Note the source has no empty-header guard on this path. -/
def parseXLSRows (fileName : String) (jsonData : List (List Cell)) : Except String ParseResult :=
  if jsonData.isEmpty then .error "No data found in worksheet"
  else
    let headers := (jsonData.headD []).map cellToString
    let dataRows := jsonData.drop 1
    let cmap := detectColumns headers (dataRows.take 10)
    if cmap.date.isNone && cmap.amount.isNone then
      .error "Could not detect date or amount columns. Please check your Excel format."
    else
      .ok ⟨(materializeRows (extractRow fileName cmap) dataRows).1, fileName, headers⟩

/-- The routing decision of `parseFile`. -/
inductive Route where
  | csv | xls | unsupported
deriving DecidableEq, Repr

/-- `file.name.toLowerCase().split('.').pop()`. -/
def extOf (name : String) : String :=
  String.mk ((splitCh '.' (lowerChars name.data)).getLastD [])

/-- The format dispatch of `parseFile` on (filename, declared MIME type). -/
def routeFile (name ftype : String) : Route :=
  if extOf name == "csv" || ftype == "text/csv" then .csv
  else if extOf name == "xlsx" || extOf name == "xls" || containsSub ftype "spreadsheet" then .xls
  else .unsupported

/-! ### Spec-side reading of isLikelyDateColumn (for comparison only) -/

/-- Modelled from the spec: one sampled value "either match[es] a table
signature or independently parse[s] to a plausible year (1900–2100)" —
each value counted at most once. -/
def specMatchOrParse (v : Cell) : Bool :=
  let l := trimChars (cellToString v).data
  datePatterns.any (fun f => fmtTest f l) || 0 < jsPlausibleParse (String.mk l)

/-- Modelled from the spec: "returns true when ≥70% of a bounded sample
(≤10 values) either match a table signature or independently parse to a
plausible year (1900–2100)", read literally.  Used only to compare the
spec's sentence with the code's double-counting tally. -/
def specLikelyDateColumn (values : List Cell) : Bool :=
  if values.isEmpty then false
  else 7 * min 10 values.length ≤ 10 * ((values.take 10).countP specMatchOrParse)

/-! ### Vocabulary for the claim statements -/

/-- A cell holding a well-formed `yyyy-mm-dd` string: exactly ten characters
in the ISO shape whose direct parse is a valid date with a plausible year
(strictly between 1900 and 2100). -/
def goodIsoCell (v : Cell) : Bool :=
  match v with
  | .str s =>
    decide (s.data.length = 10) && digAt s.data 0 && digAt s.data 1 && digAt s.data 2 &&
      digAt s.data 3 && (chAt s.data 4 == '-') && digAt s.data 5 && digAt s.data 6 &&
      (chAt s.data 7 == '-') && digAt s.data 8 && digAt s.data 9 &&
      (match jsDirectParse s with
       | some d => decide (1900 < d.year) && decide (d.year < 2100)
       | none => false)
  | _ => false

/-- A cell holding free-text made of letters, whitespace and hyphens only
(a merchant-name-like string). -/
def merchantCell (v : Cell) : Bool :=
  match v with
  | .str s => s.data.all isAlphaSpaceHyphen
  | _ => false

/-- Rows paired with their 0-based loop index. -/
def withIdx {α : Type} : Nat → List α → List (Nat × α)
  | _, [] => []
  | i, a :: l => (i, a) :: withIdx (i + 1) l

/-! ## Theorems -/

/-- **C1, counterexample.**  The six spec strings do not all parse to
2024-01-15: `"15/01/2024"` is captured by the `mm/dd/yyyy` signature (which
precedes `dd/mm/yyyy` in the pattern table) and `new Date(2024, 14, 1)`
rolls the out-of-range month over to 2025-03-01 instead of failing, while
`"2024-01-15"` parses to 2024-01-15. -/
theorem parseDate_spec_set_not_unanimous :
    parseDate (Cell.str "2024-01-15") = DResult.date ⟨2024, 1, 15⟩ ∧
      parseDate (Cell.str "15/01/2024") = DResult.date ⟨2025, 3, 1⟩ ∧
      (⟨2025, 3, 1⟩ : CalDate) ≠ ⟨2024, 1, 15⟩ := by
  refine ⟨by decide, by decide, by decide⟩

/-- **C1, amended.**  Under the fixed format-priority order, five of the six
spec strings (`2024-01-15`, `01/15/2024`, `2024.01.15`, `15 Jan 2024`,
`Jan 15, 2024`) parse to the calendar date 2024-01-15; the sixth,
`15/01/2024`, is read as month 15 by the higher-priority `mm/dd/yyyy` rule
and month overflow yields 2025-03-01. -/
theorem parseDate_spec_set_resolved :
    parseDate (Cell.str "2024-01-15") = DResult.date ⟨2024, 1, 15⟩ ∧
      parseDate (Cell.str "01/15/2024") = DResult.date ⟨2024, 1, 15⟩ ∧
      parseDate (Cell.str "2024.01.15") = DResult.date ⟨2024, 1, 15⟩ ∧
      parseDate (Cell.str "15 Jan 2024") = DResult.date ⟨2024, 1, 15⟩ ∧
      parseDate (Cell.str "Jan 15, 2024") = DResult.date ⟨2024, 1, 15⟩ ∧
      parseDate (Cell.str "15/01/2024") = DResult.date ⟨2025, 3, 1⟩ := by
  refine ⟨by decide, by decide, by decide, by decide, by decide, by decide⟩

/-- **C5.**  `parseAmount` is a total function (it is defined on every cell)
and maps the four spec examples as documented: accounting parentheses negate,
currency symbols and thousands separators are stripped, and empty input
yields zero. -/
theorem parseAmount_examples :
    parseAmount (Cell.str "(75.00)") = JSNum.fin (-75) ∧
      parseAmount (Cell.str "$1,234.56") = JSNum.fin (1234.56 : ℚ) ∧
      parseAmount (Cell.str "-50") = JSNum.fin (-50) ∧
      parseAmount (Cell.str "") = JSNum.fin 0 := by
  refine ⟨by with_unfolding_all rfl, by with_unfolding_all rfl, by with_unfolding_all rfl,
    by with_unfolding_all rfl⟩

/-- **C9.**  The numeric passthrough of `parseAmount` applies to every
JS-number cell, including NaN: `parseAmount(NaN)` is NaN, not the zero
fallback (which is therefore only reachable for non-number inputs). -/
theorem parseAmount_nan_passthrough :
    parseAmount (Cell.num JSNum.nan) = JSNum.nan ∧
      (∀ n : JSNum, parseAmount (Cell.num n) = n) ∧
      JSNum.nan ≠ JSNum.fin 0 := by
  exact ⟨rfl, fun n => rfl, by decide⟩

/-- **C2, counterexample.**  Date and amount are not mutually exclusive: for
the single header `"A"` with one sample row `["45000"]`, the lone column
passes both `isLikelyDateColumn` (the 5-digit Excel-serial signature) and
`isLikelyAmountColumn` (the plain numeric signature), and tier 1 assigns the
same index 0 to both roles. -/
theorem detectColumns_date_amount_collide :
    (detectColumns ["A"] [[Cell.str "45000"]]).date = some 0 ∧
      (detectColumns ["A"] [[Cell.str "45000"]]).amount = some 0 := by
  refine ⟨by decide, by decide⟩

/-- **C3, counterexample.**  `isLikelyDateColumn` is not "true exactly when
at least 70% of the sample either match a signature or parse plausibly": a
value doing both is counted twice, so a 10-value sample with only 4 ISO
dates (40% under the spec's reading, tallied by `specLikelyDateColumn`)
already reaches a count of 8 and makes the function return true. -/
theorem isLikelyDateColumn_double_counts :
    isLikelyDateColumn
        ([Cell.str "2024-01-15", Cell.str "2024-02-20", Cell.str "2024-03-10",
          Cell.str "2024-04-05"] ++
          (["Coffee Shop", "Woolworths", "Rent", "Groceries", "Fuel", "Cinema"].map Cell.str)) =
        true ∧
      specLikelyDateColumn
        ([Cell.str "2024-01-15", Cell.str "2024-02-20", Cell.str "2024-03-10",
          Cell.str "2024-04-05"] ++
          (["Coffee Shop", "Woolworths", "Rent", "Groceries", "Fuel", "Cinema"].map Cell.str)) =
        false := by
  refine ⟨by decide, by decide⟩

/-- **C8, counterexample.**  Extension and MIME type do not act as the claim
states: for a file named `a.xlsx` whose declared type is `text/csv`, the
extension is `xlsx` (so the claim requires the spreadsheet path) but
`parseFile` routes to the CSV path, because the `text/csv` check lives in
the first branch. -/
theorem routeFile_mime_beats_extension :
    routeFile "a.xlsx" "text/csv" = Route.csv ∧ extOf "a.xlsx" = "xlsx" ∧
      Route.csv ≠ Route.xls := by
  refine ⟨by decide, by decide, by decide⟩

/-- **C8, amended.**  `parseFile` routes to the CSV path exactly when the
lowercased extension is `csv` or the declared type is `text/csv`; that check
has priority, and only if it fails does an `xlsx`/`xls` extension or a
`spreadsheet`-containing declared type select the spreadsheet path; the
unsupported-format failure happens exactly when neither condition holds. -/
theorem routeFile_characterization (name ftype : String) :
    (routeFile name ftype = Route.csv ↔ (extOf name = "csv" ∨ ftype = "text/csv")) ∧
      (routeFile name ftype = Route.xls ↔
        (¬(extOf name = "csv" ∨ ftype = "text/csv") ∧
          (extOf name = "xlsx" ∨ extOf name = "xls" ∨ containsSub ftype "spreadsheet" = true))) ∧
      (routeFile name ftype = Route.unsupported ↔
        (¬(extOf name = "csv" ∨ ftype = "text/csv") ∧
          ¬(extOf name = "xlsx" ∨ extOf name = "xls" ∨ containsSub ftype "spreadsheet" = true))) := by
  simp only [routeFile]
  split_ifs with h1 h2 <;> simp_all [Bool.or_eq_true, beq_iff_eq]
  tauto

/-- **C4.**  Whenever the column classifier assigns neither a date role nor
an amount role, both ingestion paths reject with the no-detectable-columns
failure: the outcome is an error carrying no transaction list, produced
before any row is materialized (the result does not depend on the data
rows beyond the classifier's 10-row sample). -/
theorem noDetectableColumns_aborts
    (fileName : String) (rows : List (List String)) (jsonData : List (List Cell))
    (hr : rows ≠ [])
    (hh : rows.headD [] ≠ [])
    (hcd : (detectColumns (rows.headD [])
        (((rows.drop 1).map (fun r => r.map Cell.str)).take 10)).date = none)
    (hca : (detectColumns (rows.headD [])
        (((rows.drop 1).map (fun r => r.map Cell.str)).take 10)).amount = none)
    (hj : jsonData ≠ [])
    (hxd : (detectColumns ((jsonData.headD []).map cellToString)
        ((jsonData.drop 1).take 10)).date = none)
    (hxa : (detectColumns ((jsonData.headD []).map cellToString)
        ((jsonData.drop 1).take 10)).amount = none) :
    parseCSVRows fileName rows =
        Except.error "Could not detect date or amount columns. Please check your CSV format." ∧
      parseXLSRows fileName jsonData =
        Except.error "Could not detect date or amount columns. Please check your Excel format." := by
  constructor
  · cases rows with
    | nil => exact absurd rfl hr
    | cons r rs =>
      cases r with
      | nil => exact absurd rfl hh
      | cons c cs =>
        simp only [List.headD_cons, List.drop_succ_cons, List.drop_zero] at hcd hca
        simp [parseCSVRows, hcd, hca, List.isEmpty_cons]
  · cases jsonData with
    | nil => exact absurd rfl hj
    | cons r rs =>
      simp only [List.headD_cons, List.drop_succ_cons, List.drop_zero] at hxd hxa
      simp [parseXLSRows, hxd, hxa, List.isEmpty_cons]

/-- **C4, witness.**  The spec's example: a grid whose only row is the header
`["Notes"]` has no detectable date or amount column and both paths reject. -/
theorem noDetectableColumns_aborts_witness :
    parseCSVRows "notes.csv" [["Notes"]] =
        Except.error "Could not detect date or amount columns. Please check your CSV format." ∧
      parseXLSRows "notes.csv" [[Cell.str "Notes"]] =
        Except.error "Could not detect date or amount columns. Please check your Excel format." :=
  noDetectableColumns_aborts "notes.csv" [["Notes"]] [[Cell.str "Notes"]]
    (by decide) (by decide) (by decide) (by decide) (by decide) (by decide) (by decide)

/-- **C6.**  The row-materializer loop, characterized for any `try`-block
body: an all-empty row contributes to neither output list; a row on which
the body fails is recorded among the failures with its 1-based index and
its raw content while the loop continues; every row on which the body
succeeds contributes its transaction, so the loop always returns exactly
the transactions that were successfully built, whatever rows failed. -/
theorem materializeRows_characterization
    (extract : Nat → List Cell → Except String Transaction) (rows : List (List Cell)) :
    materializeRows extract rows =
      ((withIdx 0 rows).filterMap fun p =>
          if isEmptyRow p.2 then none
          else
            match extract p.1 p.2 with
            | .ok t => some t
            | .error _ => none,
        (withIdx 0 rows).filterMap fun p =>
          if isEmptyRow p.2 then none
          else
            match extract p.1 p.2 with
            | .ok _ => none
            | .error e => some (p.1 + 1, p.2, e)) := by
  have h : ∀ (i : Nat) (rs : List (List Cell)),
      materializeGo extract i rs =
        ((withIdx i rs).filterMap fun p =>
            if isEmptyRow p.2 then none
            else
              match extract p.1 p.2 with
              | .ok t => some t
              | .error _ => none,
          (withIdx i rs).filterMap fun p =>
            if isEmptyRow p.2 then none
            else
              match extract p.1 p.2 with
              | .ok _ => none
              | .error e => some (p.1 + 1, p.2, e)) := by
    intro i rs
    induction rs generalizing i with
    | nil => rfl
    | cons r rs ih =>
      simp only [materializeGo, withIdx, List.filterMap_cons, ih (i + 1)]
      cases hE : isEmptyRow r
      · cases hX : extract i r <;> simp [hE, hX]
      · simp [hE]
  exact h 0 rows

/-! Helper lemmas for the index-bound invariant (C10). -/

theorem selectBest_mem {l : List ColAnalysis} {x : ColAnalysis} (h : selectBest l = some x) :
    x ∈ l := by
  have key : ∀ (l : List ColAnalysis) (acc : Option ColAnalysis) (x : ColAnalysis),
      (l.foldl
          (fun best y =>
            match best with
            | none => some y
            | some b => if b.confidence < y.confidence then some y else some b)
          acc) = some x →
        x ∈ l ∨ acc = some x := by
    intro l
    induction l with
    | nil => intro acc x h; exact Or.inr h
    | cons a l ih =>
      intro acc x h
      simp only [List.foldl_cons] at h
      rcases ih _ x h with hx | hx
      · exact Or.inl (List.mem_cons_of_mem _ hx)
      · split at hx
        · cases hx
          exact Or.inl (List.mem_cons_self _ _)
        · split at hx
          · cases hx
            exact Or.inl (List.mem_cons_self _ _)
          · exact Or.inr hx
  rcases key l none x h with hx | hx
  · exact hx
  · cases hx

theorem mem_analyzeColumns_index_lt {hs : List String} {d : List (List Cell)}
    {x : ColAnalysis} (h : x ∈ analyzeColumns hs d) : x.index < hs.length := by
  simp only [analyzeColumns, List.mem_map] at h
  obtain ⟨i, hi, rfl⟩ := h
  simpa [analyzeOne] using List.mem_range.mp hi

theorem findIdx1_lt {α : Type} {p : α → Bool} :
    ∀ {l : List α} {i : Nat}, findIdx1 p l = some i → i < l.length := by
  intro l
  induction l with
  | nil => intro i h; cases h
  | cons a l ih =>
    intro i h
    simp only [findIdx1] at h
    by_cases hp : p a
    · rw [if_pos hp] at h
      cases h
      exact Nat.succ_pos _
    · rw [if_neg hp] at h
      cases hf : findIdx1 p l with
      | none => rw [hf] at h; cases h
      | some j =>
        rw [hf] at h
        cases h
        have := ih hf
        simp only [List.length_cons]
        omega

theorem tier1_date (hs : List String) (d : List (List Cell)) (m : ColumnMapping) :
    (tier1 hs d m).date = m.date ∨
      ∃ c ∈ analyzeColumns hs d, (tier1 hs d m).date = some c.index := by
  unfold tier1
  rcases h1 : selectBest ((analyzeColumns hs d).filter (·.isDate)) with _ | c
  · left
    rcases h2 : selectBest ((analyzeColumns hs d).filter (·.isAmount)) with _ | c2 <;>
      simp only [h1, h2] <;> (split <;> rfl)
  · right
    refine ⟨c, (List.mem_filter.mp (selectBest_mem h1)).1, ?_⟩
    rcases h2 : selectBest ((analyzeColumns hs d).filter (·.isAmount)) with _ | c2 <;>
      simp only [h1, h2] <;> (split <;> rfl)

theorem tier1_amount (hs : List String) (d : List (List Cell)) (m : ColumnMapping) :
    (tier1 hs d m).amount = m.amount ∨
      ∃ c ∈ analyzeColumns hs d, (tier1 hs d m).amount = some c.index := by
  unfold tier1
  rcases h2 : selectBest ((analyzeColumns hs d).filter (·.isAmount)) with _ | c2
  · left
    rcases h1 : selectBest ((analyzeColumns hs d).filter (·.isDate)) with _ | c <;>
      simp only [h1, h2] <;> (split <;> rfl)
  · right
    refine ⟨c2, (List.mem_filter.mp (selectBest_mem h2)).1, ?_⟩
    rcases h1 : selectBest ((analyzeColumns hs d).filter (·.isDate)) with _ | c <;>
      simp only [h1, h2] <;> (split <;> rfl)

theorem tier1_description (hs : List String) (d : List (List Cell)) (m : ColumnMapping) :
    (tier1 hs d m).description = m.description ∨
      ∃ c ∈ analyzeColumns hs d, (tier1 hs d m).description = some c.index := by
  unfold tier1
  rcases h1 : selectBest ((analyzeColumns hs d).filter (·.isDate)) with _ | c <;>
    rcases h2 : selectBest ((analyzeColumns hs d).filter (·.isAmount)) with _ | c2 <;>
    simp only [h1, h2] <;>
    [skip; skip; skip; skip] <;>
    split
  all_goals
    first
    | exact Or.inl rfl
    | (next c3 h3 => exact Or.inr ⟨c3, (List.mem_filter.mp (selectBest_mem h3)).1, rfl⟩)

theorem tier1_account (hs : List String) (d : List (List Cell)) (m : ColumnMapping) :
    (tier1 hs d m).account = m.account := by
  unfold tier1
  rcases h1 : selectBest ((analyzeColumns hs d).filter (·.isDate)) with _ | c <;>
    rcases h2 : selectBest ((analyzeColumns hs d).filter (·.isAmount)) with _ | c2 <;>
    simp only [h1, h2] <;> (split <;> rfl)

theorem tier2Step_fields (i : Nat) (h : String) (m : ColumnMapping) :
    ((tier2Step i h m).date = m.date ∨ (tier2Step i h m).date = some i) ∧
      ((tier2Step i h m).amount = m.amount ∨ (tier2Step i h m).amount = some i) ∧
      ((tier2Step i h m).description = m.description ∨ (tier2Step i h m).description = some i) ∧
      ((tier2Step i h m).account = m.account ∨ (tier2Step i h m).account = some i) := by
  unfold tier2Step
  refine ⟨?_, ?_, ?_, ?_⟩ <;> (dsimp only; split_ifs <;> simp)

/-- Any field of the tier-2 fold is either the incoming value or one of the
folded indices. -/
theorem tier2_fold_field (f : ColumnMapping → Option Nat)
    (hstep : ∀ (i : Nat) (h : String) (m : ColumnMapping),
      f (tier2Step i h m) = f m ∨ f (tier2Step i h m) = some i)
    (hs : List String) :
    ∀ (idxs : List Nat) (m : ColumnMapping),
      f (idxs.foldl (fun acc i => tier2Step i (hs.getD i "") acc) m) = f m ∨
        ∃ i ∈ idxs,
          f (idxs.foldl (fun acc i => tier2Step i (hs.getD i "") acc) m) = some i := by
  intro idxs
  induction idxs with
  | nil => intro m; exact Or.inl rfl
  | cons j idxs ih =>
    intro m
    simp only [List.foldl_cons]
    rcases ih (tier2Step j (hs.getD j "") m) with h | ⟨i, hi, h⟩
    · rw [h]
      rcases hstep j (hs.getD j "") m with h2 | h2
      · exact Or.inl h2
      · exact Or.inr ⟨j, List.mem_cons_self _ _, h2⟩
    · exact Or.inr ⟨i, List.mem_cons_of_mem _ hi, h⟩

theorem smartGuess_fields (hs : List String) (m : ColumnMapping) :
    ((smartGuess hs m).date = m.date ∨
        ∃ i, i < hs.length ∧ (smartGuess hs m).date = some i) ∧
      ((smartGuess hs m).amount = m.amount ∨
        ∃ i, i < hs.length ∧ (smartGuess hs m).amount = some i) ∧
      ((smartGuess hs m).description = m.description ∨
        ∃ i, i < hs.length ∧ (smartGuess hs m).description = some i) ∧
      ((smartGuess hs m).account = m.account ∨
        ∃ i, i < hs.length ∧ (smartGuess hs m).account = some i) := by
  refine ⟨?_, ?_, ?_, ?_⟩
  · rcases hF : findIdx1 (fun h => containsAnyCI h ["date", "time", "when", "posted", "on"]) hs
        with _ | i
    · exact Or.inl (by simp [smartGuess, hF])
    · by_cases hN : m.date.isNone
      · exact Or.inr ⟨i, findIdx1_lt hF, by simp [smartGuess, hF, hN]⟩
      · exact Or.inl (by simp [smartGuess, hF, hN])
  · rcases hF : findIdx1 (fun h =>
        containsAnyCI h ["amount", "total", "value", "sum", "$", "money", "credit", "debit"]) hs
        with _ | i
    · exact Or.inl (by simp [smartGuess, hF])
    · by_cases hN : m.amount.isNone
      · exact Or.inr ⟨i, findIdx1_lt hF, by simp [smartGuess, hF, hN]⟩
      · exact Or.inl (by simp [smartGuess, hF, hN])
  · rcases hF : findIdx1 (fun h =>
        containsAnyCI h ["desc", "memo", "detail", "merchant", "payee", "reference", "particular"])
        hs with _ | i
    · exact Or.inl (by simp [smartGuess, hF])
    · by_cases hN : m.description.isNone
      · exact Or.inr ⟨i, findIdx1_lt hF, by simp [smartGuess, hF, hN]⟩
      · exact Or.inl (by simp [smartGuess, hF, hN])
  · rcases hF : findIdx1 (fun h => containsAnyCI h ["account", "acc", "bank", "source", "from"])
        hs with _ | i
    · exact Or.inl (by simp [smartGuess, hF])
    · by_cases hN : m.account.isNone
      · exact Or.inr ⟨i, findIdx1_lt hF, by simp [smartGuess, hF, hN]⟩
      · exact Or.inl (by simp [smartGuess, hF, hN])

/-- **C10.**  Every column index assigned to any role by
`ColumnDetector.detectColumns` is a valid index into the header list, across
all three resolution tiers. -/
theorem detectColumns_indices_bounded (headers : List String) (data : List (List Cell)) :
    (∀ i, (detectColumns headers data).date = some i → i < headers.length) ∧
      (∀ i, (detectColumns headers data).amount = some i → i < headers.length) ∧
      (∀ i, (detectColumns headers data).description = some i → i < headers.length) ∧
      (∀ i, (detectColumns headers data).account = some i → i < headers.length) := by
  -- Stage 1: the map after the content tier.
  have h1 : ∀ m1 : ColumnMapping,
      m1 = (if data.isEmpty then ({} : ColumnMapping) else tier1 headers data {}) →
      (∀ i, m1.date = some i → i < headers.length) ∧
        (∀ i, m1.amount = some i → i < headers.length) ∧
        (∀ i, m1.description = some i → i < headers.length) ∧
        (∀ i, m1.account = some i → i < headers.length) := by
    intro m1 hm1
    rw [hm1]
    split
    · exact ⟨fun i hi => (nomatch hi), fun i hi => (nomatch hi), fun i hi => (nomatch hi),
        fun i hi => (nomatch hi)⟩
    · refine ⟨?_, ?_, ?_, ?_⟩
      · intro i hi
        rcases tier1_date headers data {} with h | ⟨c, hc, h⟩
        · rw [h] at hi; cases hi
        · rw [h] at hi; cases hi; exact mem_analyzeColumns_index_lt hc
      · intro i hi
        rcases tier1_amount headers data {} with h | ⟨c, hc, h⟩
        · rw [h] at hi; cases hi
        · rw [h] at hi; cases hi; exact mem_analyzeColumns_index_lt hc
      · intro i hi
        rcases tier1_description headers data {} with h | ⟨c, hc, h⟩
        · rw [h] at hi; cases hi
        · rw [h] at hi; cases hi; exact mem_analyzeColumns_index_lt hc
      · intro i hi
        rw [tier1_account headers data {}] at hi; cases hi
  -- Stage 2: the map after the header-pattern tier.
  have h2 : ∀ m1 : ColumnMapping,
      ((∀ i, m1.date = some i → i < headers.length) ∧
        (∀ i, m1.amount = some i → i < headers.length) ∧
        (∀ i, m1.description = some i → i < headers.length) ∧
        (∀ i, m1.account = some i → i < headers.length)) →
      (∀ i, (tier2 headers m1).date = some i → i < headers.length) ∧
        (∀ i, (tier2 headers m1).amount = some i → i < headers.length) ∧
        (∀ i, (tier2 headers m1).description = some i → i < headers.length) ∧
        (∀ i, (tier2 headers m1).account = some i → i < headers.length) := by
    intro m1 hb
    have hr : ∀ j ∈ List.range headers.length, j < headers.length := fun j hj =>
      List.mem_range.mp hj
    refine ⟨?_, ?_, ?_, ?_⟩
    · intro i hi
      rcases tier2_fold_field (fun m => m.date)
          (fun i h m => (tier2Step_fields i h m).1) headers (List.range headers.length) m1 with
        h | ⟨j, hj, h⟩
      · exact hb.1 i (by rw [← tier2] at h; rw [← h]; exact hi)
      · rw [← tier2] at h; rw [h] at hi; cases hi; exact hr _ hj
    · intro i hi
      rcases tier2_fold_field (fun m => m.amount)
          (fun i h m => (tier2Step_fields i h m).2.1) headers (List.range headers.length) m1 with
        h | ⟨j, hj, h⟩
      · exact hb.2.1 i (by rw [← tier2] at h; rw [← h]; exact hi)
      · rw [← tier2] at h; rw [h] at hi; cases hi; exact hr _ hj
    · intro i hi
      rcases tier2_fold_field (fun m => m.description)
          (fun i h m => (tier2Step_fields i h m).2.2.1) headers (List.range headers.length)
          m1 with h | ⟨j, hj, h⟩
      · exact hb.2.2.1 i (by rw [← tier2] at h; rw [← h]; exact hi)
      · rw [← tier2] at h; rw [h] at hi; cases hi; exact hr _ hj
    · intro i hi
      rcases tier2_fold_field (fun m => m.account)
          (fun i h m => (tier2Step_fields i h m).2.2.2) headers (List.range headers.length)
          m1 with h | ⟨j, hj, h⟩
      · exact hb.2.2.2 i (by rw [← tier2] at h; rw [← h]; exact hi)
      · rw [← tier2] at h; rw [h] at hi; cases hi; exact hr _ hj
  -- Stage 3: the optional positional-guess tier on top.
  have h3 : ∀ m2 : ColumnMapping,
      ((∀ i, m2.date = some i → i < headers.length) ∧
        (∀ i, m2.amount = some i → i < headers.length) ∧
        (∀ i, m2.description = some i → i < headers.length) ∧
        (∀ i, m2.account = some i → i < headers.length)) →
      ∀ mf : ColumnMapping, mf = (if countAssigned m2 < 2 then smartGuess headers m2 else m2) →
      (∀ i, mf.date = some i → i < headers.length) ∧
        (∀ i, mf.amount = some i → i < headers.length) ∧
        (∀ i, mf.description = some i → i < headers.length) ∧
        (∀ i, mf.account = some i → i < headers.length) := by
    intro m2 hb mf hmf
    rw [hmf]
    split
    · refine ⟨?_, ?_, ?_, ?_⟩
      · intro i hi
        rcases (smartGuess_fields headers m2).1 with h | ⟨j, hj, h⟩
        · exact hb.1 i (h ▸ hi)
        · rw [h] at hi; cases hi; exact hj
      · intro i hi
        rcases (smartGuess_fields headers m2).2.1 with h | ⟨j, hj, h⟩
        · exact hb.2.1 i (h ▸ hi)
        · rw [h] at hi; cases hi; exact hj
      · intro i hi
        rcases (smartGuess_fields headers m2).2.2.1 with h | ⟨j, hj, h⟩
        · exact hb.2.2.1 i (h ▸ hi)
        · rw [h] at hi; cases hi; exact hj
      · intro i hi
        rcases (smartGuess_fields headers m2).2.2.2 with h | ⟨j, hj, h⟩
        · exact hb.2.2.2 i (h ▸ hi)
        · rw [h] at hi; cases hi; exact hj
    · exact hb
  have hdc : detectColumns headers data =
      (if countAssigned (tier2 headers
          (if data.isEmpty then ({} : ColumnMapping) else tier1 headers data {})) < 2 then
        smartGuess headers (tier2 headers
          (if data.isEmpty then ({} : ColumnMapping) else tier1 headers data {}))
      else tier2 headers
          (if data.isEmpty then ({} : ColumnMapping) else tier1 headers data {})) := rfl
  exact h3 _ (h2 _ (h1 _ rfl)) _ hdc

/-- **C10, witness.**  On headers `["date", "amount"]` with no sample data,
tier 2 assigns the date role to index 0, and the bound instantiates to
`0 < 2`. -/
theorem detectColumns_indices_bounded_witness :
    (detectColumns ["date", "amount"] []).date = some 0 ∧
      0 < (["date", "amount"] : List String).length :=
  ⟨by decide, (detectColumns_indices_bounded ["date", "amount"] []).1 0 (by decide)⟩

/-! Helper lemmas about characters and the date-signature tests (C7, C3). -/

theorem isDig_iff {c : Char} : isDig c = true ↔ 48 ≤ c.toNat ∧ c.toNat ≤ 57 := by
  simp [isDig]

theorem isWs_of_isDig {c : Char} (h : isDig c = true) : isWs c = false := by
  cases h' : isWs c with
  | false => rfl
  | true =>
    exfalso
    simp only [isWs, Bool.or_eq_true, Bool.and_eq_true, decide_eq_true_eq] at h'
    have := isDig_iff.mp h
    omega

theorem ne_of_isDig_out {c x : Char} (h : isDig c = true)
    (hx : x.toNat < 48 ∨ 57 < x.toNat) : c ≠ x := by
  intro he
  have h' := isDig_iff.mp h
  rw [he] at h'
  omega

theorem lowCh_of_isDig {c : Char} (h : isDig c = true) : lowCh c = c := by
  have h' := isDig_iff.mp h
  simp only [lowCh]
  rw [if_neg (by omega)]

theorem findIdx1_none {α : Type} {p : α → Bool} :
    ∀ {l : List α}, (∀ x ∈ l, p x = false) → findIdx1 p l = none := by
  intro l
  induction l with
  | nil => intro _; rfl
  | cons a l ih =>
    intro h
    simp only [findIdx1]
    rw [if_neg (by simp [h a (List.mem_cons_self a l)]), ih]
    · rfl
    · exact fun x hx => h x (List.mem_cons_of_mem _ hx)

theorem month3_none_of_digit {a : Char} (h : isDig a = true) :
    ∀ (l : List Char), month3 (a :: l) = none := by
  intro l
  match l with
  | [] => rfl
  | [b] => rfl
  | b :: c :: rest =>
    have hmem : ∀ nm ∈ month3Names, 97 ≤ (nm.headD ' ').toNat := by decide
    simp only [month3]
    rw [findIdx1_none]
    intro nm hnm
    apply decide_eq_false
    intro he
    have hh := hmem nm hnm
    rw [he] at hh
    simp only [List.headD_cons] at hh
    rw [lowCh_of_isDig h] at hh
    have := isDig_iff.mp h
    omega

theorem splitCh_no_sep {sep : Char} :
    ∀ {l : List Char}, (∀ c ∈ l, c ≠ sep) → splitCh sep l = [l] := by
  intro l
  induction l with
  | nil => intro _; rfl
  | cons c r ih =>
    intro h
    have hres := ih (fun x hx => h x (List.mem_cons_of_mem _ hx))
    simp [splitCh, hres, h c (List.mem_cons_self c r)]


/-- Bridge: when a nonempty, already-trimmed string has no valid direct
parse, `parseDate` falls through to the pattern table and separator
guessing. -/
theorem parseDate_str_rest (s : String) (hne : s.data.isEmpty = false)
    (htr : trimStr s = s) (hjd : jsDirectParse s = none) :
    parseDate (Cell.str s) = parseDateRest s := by
  rw [parseDate]
  simp only [cellFalsy, cellToString, hne, Bool.false_eq_true, if_false, htr, hjd]

/-- Bridge: a successful pattern-table hit is the result of the fallback
chain. -/
theorem parseDateRest_of_some (s : String) (dd : CalDate) (h : tryPatterns s = some dd) :
    parseDateRest s = DResult.date dd := by
  unfold parseDateRest
  rw [h]

/-- **C7.**  Excel-serial decoding: on any cell whose string form is a
5-digit integer `N`, `parseDate` goes through the excel-serial signature
(the direct parse and every earlier signature fail on such strings) and
returns 1900-01-01 plus `N - 2` days — the 1900 epoch with the two-day
correction offset of the source. -/
theorem parseDate_excel_serial (s : String) (h5 : s.data.length = 5)
    (hd : ∀ c ∈ s.data, isDig c = true) :
    parseDate (Cell.str s) =
      DResult.date (addDays ⟨1900, 1, 1⟩ ((digitsVal s.data : Int) - 2)) := by
  obtain ⟨sd⟩ := s
  rcases sd with _ | ⟨a, _ | ⟨b, _ | ⟨c, _ | ⟨d, _ | ⟨e, rest⟩⟩⟩⟩⟩ <;>
    simp only [String.data, List.length_cons, List.length_nil] at h5 hd <;>
    try exact absurd h5 (by omega)
  have hrest : rest = [] := List.length_eq_zero.mp (by omega)
  subst hrest
  have ha : isDig a = true := hd a (by simp)
  have hb : isDig b = true := hd b (by simp)
  have hc : isDig c = true := hd c (by simp)
  have hdd : isDig d = true := hd d (by simp)
  have he : isDig e = true := hd e (by simp)
  have hwa := isWs_of_isDig ha
  have hwc := isWs_of_isDig hc
  have hwe := isWs_of_isDig he
  have haDash : a ≠ '-' := ne_of_isDig_out ha (by decide)
  have haPlus : a ≠ '+' := ne_of_isDig_out ha (by decide)
  have hcSl : c ≠ '/' := ne_of_isDig_out hc (by decide)
  have hcDa : c ≠ '-' := ne_of_isDig_out hc (by decide)
  have hbeED : (e == '-') = false := by
    simp [ne_of_isDig_out he (by decide : ('-' : Char).toNat < 48 ∨ 57 < ('-' : Char).toNat)]
  have hbeCD : (c == '.') = false := by
    simp [ne_of_isDig_out hc (by decide : ('.' : Char).toNat < 48 ∨ 57 < ('.' : Char).toNat)]
  have hbeED2 : (e == '.') = false := by
    simp [ne_of_isDig_out he (by decide : ('.' : Char).toNat < 48 ∨ 57 < ('.' : Char).toNat)]
  have hm3 : month3 [a, b, c, d, e] = none := month3_none_of_digit ha [b, c, d, e]
  have hIso : isoYmdAttempt [a, b, c, d, e] = none := by simp [isoYmdAttempt]
  have hYear : yearOnlyAttempt [a, b, c, d, e] = none := by simp [yearOnlyAttempt]
  have hSplit : splitCh '/' [a, b, c, d, e] = [[a, b, c, d, e]] := by
    apply splitCh_no_sep
    intro x hx
    simp only [List.mem_cons, List.not_mem_nil, or_false] at hx
    rcases hx with rfl | rfl | rfl | rfl | rfl
    · exact ne_of_isDig_out ha (by decide)
    · exact ne_of_isDig_out hb (by decide)
    · exact ne_of_isDig_out hc (by decide)
    · exact ne_of_isDig_out hdd (by decide)
    · exact ne_of_isDig_out he (by decide)
  have hMdy : mdySlashAttempt [a, b, c, d, e] = none := by simp [mdySlashAttempt, hSplit]
  have hMonD : monDYAttempt [a, b, c, d, e] = none := by simp [monDYAttempt, hm3]
  have hDMon : dMonYAttempt [a, b, c, d, e] = none := by
    simp [dMonYAttempt, eatDigits12, ha, hb, eatWs1, hwc]
  have hDirect : jsDirectParse (String.mk [a, b, c, d, e]) = none := by
    simp [jsDirectParse, hIso, hYear, hMdy, hMonD, hDMon]
  have tIso : testIso [a, b, c, d, e] = false := by
    simp [testIso, chAt]
  have tYmd : testYmd [a, b, c, d, e] = false := by
    simp [testYmd, chAt, hbeED]
  have tNNY1 : testNumNumYear '/' [a, b, c, d, e] = false := by
    simp [testNumNumYear, num12, ha, hb, hcSl]
  have tNNY2 : testNumNumYear '-' [a, b, c, d, e] = false := by
    simp [testNumNumYear, num12, ha, hb, hcDa]
  have tDot1 : testDmyDot [a, b, c, d, e] = false := by
    simp [testDmyDot, chAt, hbeCD]
  have tDot2 : testYmdDot [a, b, c, d, e] = false := by
    simp [testYmdDot, chAt, hbeED2]
  have tDMmm : testDMmmY [a, b, c, d, e] = false := by
    simp [testDMmmY, eatD12Ws, ha, hb, hwc]
  have tMmmD : testMmmDY [a, b, c, d, e] = false := by
    simp [testMmmDY, hm3]
  have tExc : testExcel [a, b, c, d, e] = true := by
    simp [testExcel, ha, hb, hc, hdd, he]
  have hPInt : jsParseIntL [a, b, c, d, e] = some ((digitsVal [a, b, c, d, e] : Nat) : Int) := by
    simp [jsParseIntL, List.dropWhile_cons, hwa, haDash, haPlus, List.takeWhile_cons,
      ha, hb, hc, hdd, he]
  have htrim : trimChars [a, b, c, d, e] = [a, b, c, d, e] := by
    simp [trimChars, List.dropWhile_cons, hwa, hwe]
  have hTry : tryPatterns (String.mk [a, b, c, d, e]) =
      some (addDays ⟨1900, 1, 1⟩ ((digitsVal [a, b, c, d, e] : Int) - 2)) := by
    simp [tryPatterns, tryPatternsGo, datePatterns, fmtTest, tIso, tYmd, tNNY1, tNNY2,
      tDot1, tDot2, tDMmm, tMmmD, tExc, parseWithFormat, hPInt]
  have htr : trimStr (String.mk [a, b, c, d, e]) = String.mk [a, b, c, d, e] := by
    simp only [trimStr, htrim]
  rw [parseDate_str_rest (String.mk [a, b, c, d, e]) rfl htr hDirect,
    parseDateRest_of_some _ _ hTry]

/-- **C7, witness.**  Instantiated at the serial 45000 (the calendar date
2023-03-15). -/
theorem parseDate_excel_serial_witness :
    parseDate (Cell.str "45000") =
      DResult.date (addDays ⟨1900, 1, 1⟩ ((digitsVal "45000".data : Int) - 2)) :=
  parseDate_excel_serial "45000" (by decide) (by decide)

/-! Helper lemmas for the isLikelyDateColumn tally (C3). -/

theorem mem_trimChars {c : Char} {l : List Char} (h : c ∈ trimChars l) : c ∈ l := by
  simp only [trimChars, List.mem_reverse] at h
  have h1 : c ∈ (l.dropWhile isWs).reverse := (List.dropWhile_sublist isWs).subset h
  rw [List.mem_reverse] at h1
  exact (List.dropWhile_sublist isWs).subset h1

theorem not_alphaSpaceHyphen_of_isDig {c : Char} (h : isDig c = true) :
    isAlphaSpaceHyphen c = false := by
  cases hc : isAlphaSpaceHyphen c with
  | false => rfl
  | true =>
    exfalso
    have h' := isDig_iff.mp h
    simp only [isAlphaSpaceHyphen, isAlphaCh, isWs, Bool.or_eq_true, Bool.and_eq_true,
      decide_eq_true_eq, beq_iff_eq] at hc
    rcases hc with ((⟨h1, h2⟩ | ⟨h1, h2⟩) | (h1 | ⟨h1, h2⟩)) | rfl
    · omega
    · omega
    · omega
    · omega
    · exact absurd h' (by decide)

theorem dateScore_of_merchant {v : Cell} (hm : merchantCell v = true) : dateScore v = 0 := by
  cases v with
  | null => rfl
  | num n => simp [merchantCell] at hm
  | str s =>
    simp only [merchantCell] at hm
    have hall : (trimChars s.data).all isAlphaSpaceHyphen = true := by
      rw [List.all_eq_true] at hm ⊢
      intro x hx
      exact hm x (mem_trimChars hx)
    by_cases hf : cellFalsy (Cell.str s) = true
    · simp [dateScore, hf]
    · by_cases h2 : (trimChars s.data).isEmpty = true
      · simp [dateScore, hf, h2, cellToString, trimStr]
      · by_cases h3 : 50 < (trimChars s.data).length
        · simp [dateScore, hf, h2, h3, cellToString, trimStr]
        · simp [dateScore, hf, h2, h3, hall, cellToString, trimStr]

theorem dateScore_of_goodIso {v : Cell} (hg : goodIsoCell v = true) : dateScore v = 2 := by
  cases v with
  | null => simp [goodIsoCell] at hg
  | num n => simp [goodIsoCell] at hg
  | str s =>
    obtain ⟨sd⟩ := s
    simp only [goodIsoCell, Bool.and_eq_true, decide_eq_true_eq] at hg
    obtain ⟨⟨⟨⟨⟨⟨⟨⟨⟨⟨⟨hlen, h0⟩, h1⟩, h2⟩, h3⟩, h4⟩, h5⟩, h6⟩, h7⟩, h8⟩, h9⟩, hp⟩ := hg
    rcases sd with _ | ⟨c0, _ | ⟨c1, _ | ⟨c2, _ | ⟨c3, _ | ⟨c4, _ | ⟨c5, _ | ⟨c6, _ | ⟨c7,
        _ | ⟨c8, _ | ⟨c9, rest⟩⟩⟩⟩⟩⟩⟩⟩⟩⟩ <;>
      try (exfalso; simp at hlen; done)
    have hrest : rest = [] := by
      simp only [String.data, List.length_cons] at hlen
      exact List.length_eq_zero.mp (by omega)
    subst hrest
    simp only [digAt, chAt, String.data, List.getD_cons_zero, List.getD_cons_succ,
      beq_iff_eq] at h0 h1 h2 h3 h4 h5 h6 h7 h8 h9
    subst h4
    subst h7
    have hws0 := isWs_of_isDig h0
    have hws9 := isWs_of_isDig h9
    have htrim : trimChars [c0, c1, c2, c3, '-', c5, c6, '-', c8, c9] =
        [c0, c1, c2, c3, '-', c5, c6, '-', c8, c9] := by
      simp [trimChars, List.dropWhile_cons, hws0, hws9]
    have hymd : testYmd [c0, c1, c2, c3, '-', c5, c6, '-', c8, c9] = true := by
      simp [testYmd, digAt, chAt, h0, h1, h2, h3, h5, h6, h8, h9]
    have hany : datePatterns.any
        (fun f => fmtTest f [c0, c1, c2, c3, '-', c5, c6, '-', c8, c9]) = true := by
      simp [datePatterns, fmtTest, hymd]
    have halpha : ([c0, c1, c2, c3, '-', c5, c6, '-', c8, c9].all isAlphaSpaceHyphen) = false := by
      simp [not_alphaSpaceHyphen_of_isDig h0]
    rcases hjp : jsDirectParse (String.mk [c0, c1, c2, c3, '-', c5, c6, '-', c8, c9]) with _ | dd
    · rw [hjp] at hp
      cases hp
    · rw [hjp] at hp
      simp only [Bool.and_eq_true, decide_eq_true_eq] at hp
      have hpl : jsPlausibleParse (String.mk [c0, c1, c2, c3, '-', c5, c6, '-', c8, c9]) = 1 := by
        simp [jsPlausibleParse, hjp, hp.1, hp.2]
      simp [dateScore, cellFalsy, cellToString, trimStr, htrim, halpha, hany, hpl]

theorem sum_map_dateScore_zero : ∀ (l : List Cell), (∀ v ∈ l, merchantCell v = true) →
    (l.map dateScore).sum = 0 := by
  intro l
  induction l with
  | nil => intro _; rfl
  | cons v l ih =>
    intro h
    simp only [List.map_cons, List.sum_cons]
    rw [dateScore_of_merchant (h v (List.mem_cons_self _ _)),
      ih (fun x hx => h x (List.mem_cons_of_mem _ hx))]

theorem two_mul_countP_le_sum_map : ∀ (l : List Cell),
    2 * l.countP goodIsoCell ≤ (l.map dateScore).sum := by
  intro l
  induction l with
  | nil => simp
  | cons v l ih =>
    simp only [List.countP_cons, List.map_cons, List.sum_cons]
    by_cases hv : goodIsoCell v = true
    · rw [dateScore_of_goodIso hv]
      simp [hv]
      omega
    · simp [hv]
      omega

/-- **C3, amended.**  The tally of `isLikelyDateColumn` counts a
signature-table match and a plausible direct parse independently, so a value
satisfying both counts twice; the function is therefore not characterized by
the fraction of values that match-or-parse.  What does hold: it returns true
on every 10-value sample holding at least 7 well-formed `yyyy-mm-dd` values
(each contributes two points), and false on every sample of free-text
merchant names (letters, whitespace and hyphens only — all skipped). -/
theorem isLikelyDateColumn_resolved :
    (∀ values : List Cell, values.length = 10 → 7 ≤ values.countP goodIsoCell →
        isLikelyDateColumn values = true) ∧
      (∀ values : List Cell, (∀ v ∈ values, merchantCell v = true) →
        isLikelyDateColumn values = false) := by
  constructor
  · intro values hlen hcnt
    have hne : values.isEmpty = false := by
      cases values with
      | nil => simp at hlen
      | cons a l => rfl
    have htake : values.take 10 = values := List.take_of_length_le (by omega)
    have hsum := two_mul_countP_le_sum_map values
    simp only [isLikelyDateColumn, hne, Bool.false_eq_true, if_false, htake, hlen,
      decide_eq_true_eq]
    omega
  · intro values hall
    cases values with
    | nil => rfl
    | cons a l =>
      have hz : (((a :: l).take 10).map dateScore).sum = 0 :=
        sum_map_dateScore_zero _ (fun v hv => hall v (List.take_subset _ _ hv))
      simp only [isLikelyDateColumn, List.isEmpty_cons, Bool.false_eq_true, if_false, hz,
        decide_eq_false_iff_not]
      omega

/-- **C3, amended, witness.**  A 10-value sample with 7 ISO dates and 3
names is classified as a date column; 10 merchant names are not. -/
theorem isLikelyDateColumn_resolved_witness :
    isLikelyDateColumn
        (["2024-01-15", "2024-02-20", "2024-03-10", "2024-04-05", "2024-05-01",
          "2024-06-30", "2024-07-04", "Coffee Shop", "Woolworths", "Rent"].map Cell.str) =
        true ∧
      isLikelyDateColumn
        (["Coffee Shop", "Woolworths", "Rent", "Groceries", "Fuel", "Cinema",
          "Bakery", "Hardware", "Chemist", "News-agent"].map Cell.str) = false :=
  ⟨isLikelyDateColumn_resolved.1 _ (by decide) (by decide),
    isLikelyDateColumn_resolved.2 _ (by decide)⟩

/-- **C2, amended.**  The date and amount selections of tier 1 are made
independently, so whenever a single-column file's sample passes both the
date-likelihood and the amount-likelihood tests, `detectColumns` assigns
column 0 to both roles simultaneously — the claimed mutual exclusion does
not hold. -/
theorem detectColumns_both_roles_when_both_likely (h : String) (v : Cell)
    (hnull : v ≠ Cell.null)
    (hL : isLikelyDateColumn [v] = true)
    (hA : isLikelyAmountColumn [v] = true) :
    (detectColumns [h] [[v]]).date = some 0 ∧ (detectColumns [h] [[v]]).amount = some 0 := by
  have hcv : columnValues [[v]] 0 = [v] := by
    cases v with
    | null => exact absurd rfl hnull
    | str s => rfl
    | num n => rfl
  have hana : analyzeColumns [h] [[v]] =
      [{ index := 0, isDate := true, isAmount := true,
         isDesc := isLikelyDescriptionColumn [v],
         confidence := calculateConfidence [v] h }] := by
    have hr1 : List.range 1 = [0] := rfl
    simp [analyzeColumns, hr1, analyzeOne, hcv, hL, hA]
  have ht1 : tier1 [h] [[v]] {} =
      { date := some 0, amount := some 0, description := none, account := none } := by
    simp [tier1, hana, selectBest, List.filter_cons, List.filter_nil, List.foldl_cons,
      List.foldl_nil]
  have ht2 : tier2 [h] ({ date := some 0, amount := some 0, description := none, account := none } : ColumnMapping) =
      { date := some 0, amount := some 0,
        description := if descHeaderMatch (cleanHeader h) then some 0 else none,
        account := if accountHeaderMatch (cleanHeader h) then some 0 else none } := by
    have hr1 : List.range 1 = [0] := rfl
    simp [tier2, hr1, tier2Step, List.foldl_cons, List.foldl_nil]
  have hfinal : detectColumns [h] [[v]] =
      if countAssigned (tier2 [h] (tier1 [h] [[v]] {})) < 2 then
        smartGuess [h] (tier2 [h] (tier1 [h] [[v]] {}))
      else tier2 [h] (tier1 [h] [[v]] {}) := rfl
  rw [hfinal, ht1, ht2, if_neg]
  · exact ⟨rfl, rfl⟩
  · by_cases hD : descHeaderMatch (cleanHeader h) <;>
      by_cases hAc : accountHeaderMatch (cleanHeader h) <;>
      simp [countAssigned, hD, hAc]

/-- **C2, amended, witness.**  A single column of 5-digit integer strings is
both date-like (Excel-serial signature) and amount-like (numeric signature)
and receives both roles. -/
theorem detectColumns_both_roles_when_both_likely_witness :
    (detectColumns ["B"] [[Cell.str "12345"]]).date = some 0 ∧
      (detectColumns ["B"] [[Cell.str "12345"]]).amount = some 0 :=
  detectColumns_both_roles_when_both_likely "B" (Cell.str "12345")
    (by decide) (by decide) (by decide)
